import Mathlib

/-!
Verification of the replica-clone core declared in
src/be/src/olap/task/engine_clone_task.h (class EngineCloneTask).

The repository ships only the declaration surface of the clone task; the
bodies of execute, _clone_copy, _convert_to_new_snapshot and _finish_clone
are not under src/.  Where a definition embeds one of those missing bodies
it is modelled from the specification (spec.md) and its doc comment says so.
Definitions that transcribe the header itself (parameter lists, return
types) are taken directly from the source file.
-/

namespace DorisClone

/-- A closed interval of version numbers representing one committed rowset.
This is the `Version` value passed to EngineCloneTask::_clone_copy through
the missing_versions list in engine_clone_task.h. -/
structure VersionRange where
  first : Nat
  last : Nat
deriving Repr, DecidableEq

/-- Local tablet metadata view: the committed version ranges and the
cumulative point (highest version fully represented by merged history). -/
structure LocalTablet where
  ranges : List VersionRange
  cumulativePoint : Nat
deriving Repr, DecidableEq

/-- A source replica's advertised version set. -/
structure SourceView where
  ranges : List VersionRange
  maxVersion : Nat
deriving Repr, DecidableEq

/-- Result of version-gap planning: already in sync, incremental with the
missing ranges, or full clone. -/
inductive PlanResult where
  | alreadyInSync : PlanResult
  | incremental : List VersionRange → PlanResult
  | full : PlanResult
deriving Repr, DecidableEq

/-- Modelled from the spec: the missing-version computation inside
EngineCloneTask::_clone_copy, whose body is not under src/ (only its
declaration).  Walks the source's rowset ranges and extracts the chain of
ranges that exactly covers versions cur..target: ranges lying entirely
below cur are skipped (the local tablet already holds them); the next
usable range must begin exactly at cur and stay within target, otherwise
the gap is not servable from individually available rowsets and the result
is none. -/
def chainFrom (target : Nat) : Nat → List VersionRange → Option (List VersionRange)
  | cur, [] => if target < cur then some [] else none
  | cur, r :: rest =>
    if target < cur then some []
    else if r.last < cur then chainFrom target cur rest
    else if r.first = cur ∧ r.last ≤ target then
      (chainFrom target (r.last + 1) rest).map (fun ms => r :: ms)
    else none

/-- The effective target version of one planning step: the source's maximum
committed version, lowered to the explicit target when one is given. -/
def planTarget (src : SourceView) (explicitTarget : Option Nat) : Nat :=
  match explicitTarget with
  | some t => min t src.maxVersion
  | none => src.maxVersion

/-- Modelled from the spec: the VersionDiffPlanner contract (spec section
4.1); the implementing body of EngineCloneTask::_clone_copy is not under
src/.  Returns alreadyInSync when the target is already covered locally,
full when the local tablet has no prior data or the gap cannot be served
from the source's individually available rowsets, and otherwise incremental
with the precise missing ranges.  The size threshold for preferring full
over many small incremental ranges is an operational tuning parameter
(spec section 9) and is not modelled. -/
def plan (tab : LocalTablet) (src : SourceView) (explicitTarget : Option Nat) : PlanResult :=
  let target := planTarget src explicitTarget
  if target ≤ tab.cumulativePoint then PlanResult.alreadyInSync
  else if tab.ranges = [] then PlanResult.full
  else
    match chainFrom target (tab.cumulativePoint + 1) src.ranges with
    | some ms => PlanResult.incremental ms
    | none => PlanResult.full

/-- Version v is covered by one of the ranges. -/
def covered (rs : List VersionRange) (v : Nat) : Prop :=
  ∃ r ∈ rs, r.first ≤ v ∧ v ≤ r.last

/-- The ranges exactly tile the interval cur..target: each range starts
exactly where the previous coverage ended, and coverage ends at target. -/
def exactTile : Nat → Nat → List VersionRange → Prop
  | cur, target, [] => target < cur
  | cur, target, r :: rest =>
    r.first = cur ∧ cur ≤ r.last ∧ r.last ≤ target ∧ exactTile (r.last + 1) target rest

lemma chainFrom_exactTile (target : Nat) :
    ∀ (rs : List VersionRange) (cur : Nat) (ms : List VersionRange),
      chainFrom target cur rs = some ms → exactTile cur target ms := by
  intro rs
  induction rs with
  | nil =>
    intro cur ms h
    simp only [chainFrom] at h
    split at h
    · cases h
      simpa [exactTile] using ‹target < cur›
    · cases h
  | cons r rest ih =>
    intro cur ms h
    simp only [chainFrom] at h
    split at h
    · cases h
      simpa [exactTile] using ‹target < cur›
    · split at h
      · exact ih cur ms h
      · split at h
        · rcases Option.map_eq_some'.mp h with ⟨ms', hms', rfl⟩
          rcases ‹r.first = cur ∧ r.last ≤ target› with ⟨h1, h2⟩
          refine ⟨h1, ?_, h2, ih (r.last + 1) ms' hms'⟩
          omega
        · cases h

lemma exactTile_covered {target : Nat} :
    ∀ {ms : List VersionRange} {cur : Nat}, exactTile cur target ms →
      ∀ v, covered ms v ↔ (cur ≤ v ∧ v ≤ target) := by
  intro ms
  induction ms with
  | nil =>
    intro cur h v
    simp only [exactTile] at h
    simp only [covered, List.not_mem_nil]
    constructor
    · rintro ⟨r, hr, -⟩
      simp at hr
    · intro hv
      omega
  | cons r rest ih =>
    intro cur h v
    rcases h with ⟨h1, h2, h3, h4⟩
    have hrest := ih h4 v
    simp only [covered, List.mem_cons] at hrest ⊢
    constructor
    · rintro ⟨s, hs | hs, hv1, hv2⟩
      · subst hs
        omega
      · have := hrest.mp ⟨s, hs, hv1, hv2⟩
        omega
    · intro hv
      by_cases hc : v ≤ r.last
      · exact ⟨r, Or.inl rfl, by omega⟩
      · rcases hrest.mpr (by omega) with ⟨s, hs, hv1, hv2⟩
        exact ⟨s, Or.inr hs, hv1, hv2⟩

lemma exactTile_first_ge {target : Nat} :
    ∀ {ms : List VersionRange} {cur : Nat}, exactTile cur target ms →
      ∀ r ∈ ms, cur ≤ r.first := by
  intro ms
  induction ms with
  | nil =>
    intro cur _ r hr
    simp at hr
  | cons s rest ih =>
    intro cur h r hr
    rcases h with ⟨h1, h2, h3, h4⟩
    rcases List.mem_cons.mp hr with hr | hr
    · subst hr
      omega
    · have := ih h4 r hr
      omega

lemma exactTile_pairwise {target : Nat} :
    ∀ {ms : List VersionRange} {cur : Nat}, exactTile cur target ms →
      List.Pairwise (fun a b => a.last < b.first) ms := by
  intro ms
  induction ms with
  | nil =>
    intro cur _
    exact List.Pairwise.nil
  | cons r rest ih =>
    intro cur h
    rcases h with ⟨h1, h2, h3, h4⟩
    refine List.Pairwise.cons ?_ (ih h4)
    intro b hb
    have := exactTile_first_ge h4 b hb
    omega

/-- Claim C3: whenever the gap between the local cumulative point and the
planning target is nonempty and servable from the source's rowset ranges
(the chain extraction succeeds), the planner returns incremental with a
range list that exactly tiles the gap — every version in the gap is covered
by exactly one listed range, nothing outside the gap is covered, and the
ranges are pairwise disjoint in ascending order. -/
theorem C3_incremental_plan_exactly_tiles_gap
    (tab : LocalTablet) (src : SourceView) (tgt : Option Nat) (ms : List VersionRange)
    (hdata : tab.ranges ≠ [])
    (hgap : tab.cumulativePoint < planTarget src tgt)
    (hserv : chainFrom (planTarget src tgt) (tab.cumulativePoint + 1) src.ranges = some ms) :
    plan tab src tgt = PlanResult.incremental ms ∧
    (∀ v, covered ms v ↔ (tab.cumulativePoint + 1 ≤ v ∧ v ≤ planTarget src tgt)) ∧
    List.Pairwise (fun a b => a.last < b.first) ms := by
  have htile := chainFrom_exactTile (planTarget src tgt) src.ranges (tab.cumulativePoint + 1) ms hserv
  refine ⟨?_, fun v => exactTile_covered htile v, exactTile_pairwise htile⟩
  unfold plan
  simp only [if_neg (by omega : ¬ planTarget src tgt ≤ tab.cumulativePoint), if_neg hdata, hserv]

/-- Witness for C3, spec Scenario A: local tablet at versions 1..10, source
at 1..15 holding rowsets [1,10] and [11,15]; the planner returns
incremental [11,15]. -/
theorem C3_incremental_plan_exactly_tiles_gap_witness :
    chainFrom 15 11 [⟨1, 10⟩, ⟨11, 15⟩] = some [⟨11, 15⟩] ∧
    plan ⟨[⟨1, 10⟩], 10⟩ ⟨[⟨1, 10⟩, ⟨11, 15⟩], 15⟩ none = PlanResult.incremental [⟨11, 15⟩] :=
  ⟨by decide,
    (C3_incremental_plan_exactly_tiles_gap ⟨[⟨1, 10⟩], 10⟩ ⟨[⟨1, 10⟩, ⟨11, 15⟩], 15⟩ none
      [⟨11, 15⟩] (by decide) (by decide) (by decide)).1⟩

/-- Claim C4: when the gap is nonempty but not servable from the source's
individually available rowsets (the source lacks a needed base version, so
the chain extraction fails), the planner returns full and never
incremental. -/
theorem C4_unservable_gap_forces_full
    (tab : LocalTablet) (src : SourceView) (tgt : Option Nat)
    (hgap : tab.cumulativePoint < planTarget src tgt)
    (hserv : chainFrom (planTarget src tgt) (tab.cumulativePoint + 1) src.ranges = none) :
    plan tab src tgt = PlanResult.full ∧
    ∀ ms, plan tab src tgt ≠ PlanResult.incremental ms := by
  have hfull : plan tab src tgt = PlanResult.full := by
    unfold plan
    simp only [if_neg (by omega : ¬ planTarget src tgt ≤ tab.cumulativePoint)]
    by_cases hdata : tab.ranges = []
    · simp [hdata]
    · simp only [if_neg hdata, hserv]
  exact ⟨hfull, fun ms h => by rw [hfull] at h; cases h⟩

/-- Witness for C4, spec Scenario C: local tablet at 1..10, source compacted
to a single rowset [8,20] so version 11's base is not individually
available; the planner returns full. -/
theorem C4_unservable_gap_forces_full_witness :
    chainFrom 20 11 [⟨8, 20⟩] = none ∧
    plan ⟨[⟨1, 10⟩], 10⟩ ⟨[⟨8, 20⟩], 20⟩ none = PlanResult.full :=
  ⟨by decide,
    (C4_unservable_gap_forces_full ⟨[⟨1, 10⟩], 10⟩ ⟨[⟨8, 20⟩], 20⟩ none
      (by decide) (by decide)).1⟩

/-- The clone core's error taxonomy (spec section 7). -/
inductive CloneError where
  | sourceUnreachable : CloneError
  | versionUnavailable : CloneError
  | unsupportedFormat : CloneError
  | corruptSnapshot : CloneError
  | validationFailed : CloneError
  | metadataCommitFailed : CloneError
  | versionConflict : CloneError
  | ioError : CloneError
  | diskFull : CloneError
deriving Repr, DecidableEq

/-- Network-level outcome of one snapshot-fetch attempt against a source
replica: success carries bytes copied and elapsed milliseconds. -/
inductive NetResult where
  | success : Nat → Nat → NetResult
  | connRefused : NetResult
  | connReset : NetResult
  | timeout : NetResult
  | versionUnavailable : NetResult
  | diskFull : NetResult
  | ioError : NetResult
deriving Repr, DecidableEq

/-- The transient network failures that the fetcher retries against the
same source: connection refused, connection reset, timeout. -/
def isTransientNet : NetResult → Bool
  | NetResult.connRefused => true
  | NetResult.connReset => true
  | NetResult.timeout => true
  | _ => false

/-- Bytes copied and elapsed time of a successful fetch. -/
structure FetchResult where
  bytesCopied : Nat
  elapsedMs : Nat
deriving Repr, DecidableEq

/-- Modelled from the spec: the retry loop of the snapshot fetch inside
EngineCloneTask::_clone_copy, whose body is not under src/ (spec section
4.2).  oracle i is what the network returns on the i-th attempt; the loop
retries only transient failures while attempts remain, reports
sourceUnreachable when every attempt failed transiently, and escalates a
non-transient failure — in particular the source reporting a requested
version unavailable — immediately without retrying.  Returns the final
result together with the total number of attempts made. -/
def fetchRetryLoop (oracle : Nat → NetResult) : Nat → Nat → Except CloneError FetchResult × Nat
  | 0, i => (Except.error CloneError.sourceUnreachable, i)
  | n + 1, i =>
    match oracle i with
    | NetResult.success b t => (Except.ok ⟨b, t⟩, i + 1)
    | NetResult.versionUnavailable => (Except.error CloneError.versionUnavailable, i + 1)
    | NetResult.diskFull => (Except.error CloneError.diskFull, i + 1)
    | NetResult.ioError => (Except.error CloneError.ioError, i + 1)
    | _ =>
      if n = 0 then (Except.error CloneError.sourceUnreachable, i + 1)
      else fetchRetryLoop oracle n (i + 1)

/-- The bounded attempt budget for one fetch. -/
def maxFetchAttempts : Nat := 3

/-- Fetch a snapshot with the bounded retry policy, starting at attempt 0. -/
def fetchSnapshot (oracle : Nat → NetResult) (maxAttempts : Nat) :
    Except CloneError FetchResult × Nat :=
  fetchRetryLoop oracle maxAttempts 0

lemma fetchRetryLoop_bound (oracle : Nat → NetResult) :
    ∀ n i, (fetchRetryLoop oracle n i).2 ≤ i + n := by
  intro n
  induction n with
  | zero => intro i; simp [fetchRetryLoop]
  | succ m ih =>
    intro i
    simp only [fetchRetryLoop]
    cases h : oracle i with
    | success b t => simp
    | versionUnavailable => simp
    | diskFull => simp
    | ioError => simp
    | connRefused =>
      have hrec := ih (i + 1)
      by_cases hm : m = 0
      · simp [hm]
      · simp only [hm, if_false]
        simp
        omega
    | connReset =>
      have hrec := ih (i + 1)
      by_cases hm : m = 0
      · simp [hm]
      · simp only [hm, if_false]
        simp
        omega
    | timeout =>
      have hrec := ih (i + 1)
      by_cases hm : m = 0
      · simp [hm]
      · simp only [hm, if_false]
        simp
        omega

lemma fetchRetryLoop_skip (oracle : Nat → NetResult) :
    ∀ j n i, (∀ k, k < j → isTransientNet (oracle (i + k)) = true) → j < n →
      fetchRetryLoop oracle n i = fetchRetryLoop oracle (n - j) (i + j) := by
  intro j
  induction j with
  | zero => intro n i _ _; simp
  | succ m ih =>
    intro n i htrans hn
    have h0 : isTransientNet (oracle i) = true := by
      have := htrans 0 (Nat.succ_pos m)
      simpa using this
    obtain ⟨p, rfl⟩ : ∃ p, n = p + 1 := ⟨n - 1, by omega⟩
    have hp : p ≠ 0 := by omega
    have hstep : fetchRetryLoop oracle (p + 1) i = fetchRetryLoop oracle p (i + 1) := by
      simp only [fetchRetryLoop]
      cases h : oracle i with
      | success b t => rw [h] at h0; simp [isTransientNet] at h0
      | versionUnavailable => rw [h] at h0; simp [isTransientNet] at h0
      | diskFull => rw [h] at h0; simp [isTransientNet] at h0
      | ioError => rw [h] at h0; simp [isTransientNet] at h0
      | connRefused => rw [if_neg hp]
      | connReset => rw [if_neg hp]
      | timeout => rw [if_neg hp]
    rw [hstep, ih p (i + 1) (fun k hk => by
      have := htrans (k + 1) (by omega)
      simpa [Nat.add_assoc, Nat.add_comm 1 k] using this) (by omega)]
    congr 1
    · omega
    · omega

/-- Claim C7: the fetcher makes at most the bounded number of attempts, and
when the source explicitly reports a requested version unavailable (after
any run of transient failures), it escalates that error immediately — the
attempt count stops right at that attempt, with no further retry. -/
theorem C7_fetch_bounded_retries_and_immediate_version_unavailable
    (oracle : Nat → NetResult) (maxAttempts j : Nat)
    (hja : j < maxAttempts)
    (hj : oracle j = NetResult.versionUnavailable)
    (htrans : ∀ k, k < j → isTransientNet (oracle k) = true) :
    fetchSnapshot oracle maxAttempts = (Except.error CloneError.versionUnavailable, j + 1) ∧
    ∀ (orc : Nat → NetResult) (m : Nat), (fetchSnapshot orc m).2 ≤ m := by
  constructor
  · have hskip := fetchRetryLoop_skip oracle j maxAttempts 0 (fun k hk => by simpa using htrans k hk) hja
    obtain ⟨p, hp⟩ : ∃ p, maxAttempts - j = p + 1 := ⟨maxAttempts - j - 1, by omega⟩
    rw [fetchSnapshot, hskip, hp]
    simp only [fetchRetryLoop, Nat.zero_add, hj]
  · intro orc m
    simpa using fetchRetryLoop_bound orc m 0

/-- Witness for C7: the first attempt times out, the second attempt gets an
explicit version-unavailable answer; with an attempt budget of 3 the fetch
stops after exactly 2 attempts and reports versionUnavailable. -/
theorem C7_fetch_bounded_retries_and_immediate_version_unavailable_witness :
    (fun k => if k = 0 then NetResult.timeout else NetResult.versionUnavailable) 1 =
      NetResult.versionUnavailable ∧
    fetchSnapshot (fun k => if k = 0 then NetResult.timeout else NetResult.versionUnavailable) 3 =
      (Except.error CloneError.versionUnavailable, 2) :=
  ⟨by decide,
    (C7_fetch_bounded_retries_and_immediate_version_unavailable
      (fun k => if k = 0 then NetResult.timeout else NetResult.versionUnavailable) 3 1
      (by decide) (by decide)
      (by
        intro k hk
        have hk0 : k = 0 := Nat.lt_one_iff.mp hk
        subst hk0
        rfl)).1⟩

/-- Contents of the live tablet: its committed version ranges (metadata)
and the files of its data directory, as (version, payload) pairs. -/
structure TabletState where
  ranges : List VersionRange
  dataDir : List (Nat × Nat)
deriving Repr, DecidableEq

/-- Contents of the staging directory exclusively owned by one in-flight
clone attempt. -/
structure StagingState where
  present : Bool
  files : List (Nat × Nat)
  formatVersion : Nat
deriving Repr, DecidableEq

/-- The whole on-disk state one clone attempt can reach: the live tablet
and its staging directory. -/
structure SysState where
  tablet : TabletState
  staging : StagingState
deriving Repr, DecidableEq

/-- The current on-disk snapshot layout version. -/
def currentSnapshotFormat : Nat := 2

/-- Modelled from the spec: EngineCloneTask::_convert_to_new_snapshot,
whose body is not under src/ (spec section 4.3) — a staged snapshot already
in the current layout is left unchanged; one in the immediately preceding
supported layout has its metadata rewritten in place inside the staging
directory; anything older is refused as unsupportedFormat. -/
def convertToNewSnapshot (st : StagingState) : Except CloneError StagingState :=
  if st.formatVersion = currentSnapshotFormat then Except.ok st
  else if st.formatVersion + 1 = currentSnapshotFormat then
    Except.ok { st with formatVersion := currentSnapshotFormat }
  else Except.error CloneError.unsupportedFormat

/-- The conversion step lifted to the whole on-disk state: its output
staging directory is computed from the input staging directory alone, and
the live tablet component passes through. -/
def convertStep (s : SysState) : Except CloneError SysState :=
  match convertToNewSnapshot s.staging with
  | Except.ok st => Except.ok { s with staging := st }
  | Except.error e => Except.error e

/-- Claim C8: snapshot conversion modifies only the staging directory and
never reads or writes the live tablet — the step's entire outcome is a
function of the staging component alone with the tablet passed through
unchanged, and on success the live tablet state after convert equals the
one before. -/
theorem C8_convert_touches_only_staging (s : SysState) :
    convertStep s = (convertToNewSnapshot s.staging).map (fun st => SysState.mk s.tablet st) ∧
    ∀ s', convertStep s = Except.ok s' → s'.tablet = s.tablet := by
  constructor
  · unfold convertStep
    cases convertToNewSnapshot s.staging <;> rfl
  · intro s' h
    unfold convertStep at h
    cases hc : convertToNewSnapshot s.staging with
    | ok st => rw [hc] at h; cases h; rfl
    | error e => rw [hc] at h; cases h

/-- Witness for C8: converting a staged snapshot in the old layout (format
1) rewrites only the staging directory; the live tablet is unchanged. -/
theorem C8_convert_touches_only_staging_witness :
    convertStep ⟨⟨[⟨1, 5⟩], [(1, 7)]⟩, ⟨true, [(6, 9)], 1⟩⟩ =
      Except.ok ⟨⟨[⟨1, 5⟩], [(1, 7)]⟩, ⟨true, [(6, 9)], 2⟩⟩ ∧
    (SysState.mk ⟨[⟨1, 5⟩], [(1, 7)]⟩ ⟨true, [(6, 9)], 2⟩).tablet =
      (SysState.mk ⟨[⟨1, 5⟩], [(1, 7)]⟩ ⟨true, [(6, 9)], 1⟩).tablet :=
  ⟨by rfl,
    (C8_convert_touches_only_staging ⟨⟨[⟨1, 5⟩], [(1, 7)]⟩, ⟨true, [(6, 9)], 1⟩⟩).2
      ⟨⟨[⟨1, 5⟩], [(1, 7)]⟩, ⟨true, [(6, 9)], 2⟩⟩ (by rfl)⟩

/-- One atomic filesystem or metadata action of a clone attempt: either a
write confined to the staging directory, or the single durable metadata
commit that replaces the live tablet state. -/
inductive CloneAct where
  | stageAct : (StagingState → StagingState) → CloneAct
  | commitAct : (TabletState → TabletState) → CloneAct

/-- Apply one action to the on-disk state. -/
def applyAct : CloneAct → SysState → SysState
  | CloneAct.stageAct f, s => { s with staging := f s.staging }
  | CloneAct.commitAct g, s => { s with tablet := g s.tablet }

/-- Run a sequence of actions in order. -/
def runActs : List CloneAct → SysState → SysState
  | [], s => s
  | a :: rest, s => runActs rest (applyAct a s)

/-- The metadata-commit action of publish: installs the staged rowset files
into the data directory and extends the version set, in one durable step. -/
def installClone (stagedFiles : List (Nat × Nat)) (newRanges : List VersionRange)
    (t : TabletState) : TabletState :=
  { ranges := t.ranges ++ newRanges, dataDir := t.dataDir ++ stagedFiles }

/-- An empty, absent staging directory. -/
def emptyStaging : StagingState := ⟨false, [], 0⟩

/-- Modelled from the spec: the on-disk action sequence of one clone
attempt through EngineCloneTask::_finish_clone, whose body is not under
src/ (spec sections 4.2-4.4): create the staging directory, download the
snapshot files into it, convert them in place, perform the single durable
metadata commit, and remove the staging directory.  Every action before
the commit writes only to staging; the commit at index 3 is the only
action that writes the live tablet. -/
def cloneActs (fetched : List (Nat × Nat)) (newRanges : List VersionRange) : List CloneAct :=
  [ CloneAct.stageAct (fun st => { st with present := true }),
    CloneAct.stageAct (fun st => { st with files := st.files ++ fetched }),
    CloneAct.stageAct (fun st => { st with formatVersion := currentSnapshotFormat }),
    CloneAct.commitAct (installClone fetched newRanges),
    CloneAct.stageAct (fun _ => emptyStaging) ]

/-- Index of the metadata commit inside cloneActs. -/
def commitIndex : Nat := 3

/-- Crash semantics: a failure injected after k actions leaves the state
reached by running exactly the first k actions of the attempt. -/
def runUpTo (acts : List CloneAct) (k : Nat) (s : SysState) : SysState :=
  runActs (List.take k acts) s

lemma cloneActs_take_big (fetched : List (Nat × Nat)) (newRanges : List VersionRange) :
    ∀ k, 5 ≤ k → List.take k (cloneActs fetched newRanges) = cloneActs fetched newRanges := by
  intro k hk
  apply List.take_of_length_le
  simp [cloneActs]
  omega

lemma cloneActs_tablet_before_commit (fetched : List (Nat × Nat))
    (newRanges : List VersionRange) (s : SysState) :
    ∀ k, k ≤ commitIndex → (runUpTo (cloneActs fetched newRanges) k s).tablet = s.tablet := by
  intro k hk
  unfold commitIndex at hk
  interval_cases k <;> rfl

lemma cloneActs_tablet_after_commit (fetched : List (Nat × Nat))
    (newRanges : List VersionRange) (s : SysState) :
    ∀ k, commitIndex < k →
      (runUpTo (cloneActs fetched newRanges) k s).tablet =
        installClone fetched newRanges s.tablet := by
  intro k hk
  unfold commitIndex at hk
  by_cases h5 : 5 ≤ k
  · unfold runUpTo
    rw [cloneActs_take_big fetched newRanges k h5]
    rfl
  · have : k = 4 := by omega
    subst this
    rfl

/-- Claim C1: a failure injected at any point strictly before the metadata
commit of publish leaves the live tablet's version set and data directory
exactly as they were before the attempt — the partial attempt has written
only to the staging directory. -/
theorem C1_failure_before_commit_leaves_tablet_intact
    (fetched : List (Nat × Nat)) (newRanges : List VersionRange) (s : SysState)
    (k : Nat) (hk : k ≤ commitIndex) :
    (runUpTo (cloneActs fetched newRanges) k s).tablet = s.tablet :=
  cloneActs_tablet_before_commit fetched newRanges s k hk

/-- Witness for C1: crashing right after the download action (2 of 5
actions executed) leaves a concrete tablet byte-identical. -/
theorem C1_failure_before_commit_leaves_tablet_intact_witness :
    2 ≤ commitIndex ∧
    (runUpTo (cloneActs [(11, 3)] [⟨11, 11⟩]) 2
        ⟨⟨[⟨1, 10⟩], [(1, 7)]⟩, emptyStaging⟩).tablet = ⟨[⟨1, 10⟩], [(1, 7)]⟩ :=
  ⟨by decide,
    C1_failure_before_commit_leaves_tablet_intact [(11, 3)] [⟨11, 11⟩]
      ⟨⟨[⟨1, 10⟩], [(1, 7)]⟩, emptyStaging⟩ 2 (by decide)⟩

/-- Claim C2: the metadata commit is the single durable point of no return —
a crash strictly after it leaves the tablet fully updated, a crash at or
before it leaves the tablet unchanged, and no crash point at all leaves the
tablet in any intermediate state. -/
theorem C2_commit_is_single_point_of_no_return
    (fetched : List (Nat × Nat)) (newRanges : List VersionRange) (s : SysState)
    (k : Nat) (hk : commitIndex < k) :
    (runUpTo (cloneActs fetched newRanges) k s).tablet =
      installClone fetched newRanges s.tablet ∧
    ∀ j, (runUpTo (cloneActs fetched newRanges) j s).tablet = s.tablet ∨
      (runUpTo (cloneActs fetched newRanges) j s).tablet =
        installClone fetched newRanges s.tablet := by
  refine ⟨cloneActs_tablet_after_commit fetched newRanges s k hk, ?_⟩
  intro j
  by_cases hj : j ≤ commitIndex
  · exact Or.inl (cloneActs_tablet_before_commit fetched newRanges s j hj)
  · exact Or.inr (cloneActs_tablet_after_commit fetched newRanges s j (by omega))

/-- Witness for C2: crashing right after the commit (4 of 5 actions
executed) leaves a concrete tablet fully updated. -/
theorem C2_commit_is_single_point_of_no_return_witness :
    commitIndex < 4 ∧
    (runUpTo (cloneActs [(11, 3)] [⟨11, 11⟩]) 4
        ⟨⟨[⟨1, 10⟩], [(1, 7)]⟩, emptyStaging⟩).tablet =
      installClone [(11, 3)] [⟨11, 11⟩] ⟨[⟨1, 10⟩], [(1, 7)]⟩ :=
  ⟨by decide,
    (C2_commit_is_single_point_of_no_return [(11, 3)] [⟨11, 11⟩]
      ⟨⟨[⟨1, 10⟩], [(1, 7)]⟩, emptyStaging⟩ 4 (by decide)).1⟩

instance {ε α : Type} [DecidableEq ε] [DecidableEq α] : DecidableEq (Except ε α) := fun a b =>
  match a, b with
  | Except.ok x, Except.ok y => decidable_of_iff (x = y) (by simp)
  | Except.ok _, Except.error _ => isFalse (by simp)
  | Except.error _, Except.ok _ => isFalse (by simp)
  | Except.error d, Except.error e => decidable_of_iff (d = e) (by simp)

/-- The clone mode actually applied at publish time. -/
inductive CloneMode where
  | incrementalMode : CloneMode
  | fullMode : CloneMode
deriving Repr, DecidableEq

/-- Kind of a successful clone outcome: a no-op because the tablet was
already in sync, or a completed clone in the given mode. -/
inductive OutcomeKind where
  | alreadyInSync : OutcomeKind
  | cloned : CloneMode → OutcomeKind
deriving Repr, DecidableEq

/-- The per-attempt result record (spec section 3): outcome kind, bytes
copied, elapsed copy time, whether a new tablet was created, and the final
committed version. -/
structure CloneOutcome where
  kind : OutcomeKind
  bytesCopied : Nat
  elapsedMs : Nat
  newTablet : Bool
  finalVersion : Nat
deriving Repr, DecidableEq

/-- Coordinator state-machine states (spec section 4.5). -/
inductive CoordState where
  | planning : CoordState
  | fetching : CoordState
  | converting : CoordState
  | publishing : CoordState
  | succeeded : CoordState
  | failed : CoordState
deriving Repr, DecidableEq

/-- Modelled from the spec: everything outside the coordinator that one
attempt observes — the source's advertised versions, the network behaviour
of each fetch try, whether at fetch time the source can still serve the
planned missing versions individually (the allow_incremental_clone output
flag of EngineCloneTask::_clone_copy), the staged snapshot's layout
version, and an optionally injected publish-time failure such as a
concurrent writer causing versionConflict. -/
structure CloneEnv where
  src : SourceView
  netOracle : Nat → NetResult
  incrServable : Bool
  stagedFormat : Nat
  publishErr : Option CloneError

/-- Observable record of one coordinator attempt: the returned result, the
resulting local tablet metadata, the sequence of coordinator states
visited, the is_incremental_clone flag passed to _finish_clone (none when
publish was never reached), and bytes copied. -/
structure AttemptResult where
  result : Except CloneError CloneOutcome
  tablet : LocalTablet
  trace : List CoordState
  publishedIncremental : Option Bool
  bytesCopied : Nat
deriving Repr, DecidableEq

/-- The missing ranges carried by an incremental plan. -/
def planMissing : PlanResult → List VersionRange
  | PlanResult.incremental ms => ms
  | _ => []

/-- Whether a plan chose incremental mode. -/
def planIsIncremental : PlanResult → Bool
  | PlanResult.incremental _ => true
  | _ => false

/-- Modelled from the spec: one full attempt of EngineCloneTask::execute,
whose body is not under src/ — Plan, Fetch, Convert, Publish in sequence,
short-circuiting to cleanup and FAILED on any stage failure, and moving
straight from PLANNING to SUCCEEDED with a zero-byte outcome when already
in sync (spec section 4.5).  The mode actually published is re-decided
after the fetch stage: when the fetch reports that incremental application
is no longer permitted (allow_incremental_clone false), a plan that was
incremental is published as full. -/
def runAttempt (env : CloneEnv) (tab : LocalTablet) : AttemptResult :=
  let pr := plan tab env.src none
  if pr = PlanResult.alreadyInSync then
    { result := Except.ok ⟨OutcomeKind.alreadyInSync, 0, 0, false, tab.cumulativePoint⟩,
      tablet := tab,
      trace := [CoordState.planning, CoordState.succeeded],
      publishedIncremental := none,
      bytesCopied := 0 }
  else
    match fetchSnapshot env.netOracle maxFetchAttempts with
    | (Except.error e, _) =>
      { result := Except.error e,
        tablet := tab,
        trace := [CoordState.planning, CoordState.fetching, CoordState.failed],
        publishedIncremental := none,
        bytesCopied := 0 }
    | (Except.ok fr, _) =>
      match convertToNewSnapshot ⟨true, [], env.stagedFormat⟩ with
      | Except.error e =>
        { result := Except.error e,
          tablet := tab,
          trace := [CoordState.planning, CoordState.fetching, CoordState.converting,
            CoordState.failed],
          publishedIncremental := none,
          bytesCopied := fr.bytesCopied }
      | Except.ok _ =>
        let isIncr := planIsIncremental pr && env.incrServable
        match env.publishErr with
        | some e =>
          { result := Except.error e,
            tablet := tab,
            trace := [CoordState.planning, CoordState.fetching, CoordState.converting,
              CoordState.publishing, CoordState.failed],
            publishedIncremental := some isIncr,
            bytesCopied := fr.bytesCopied }
        | none =>
          let newTab : LocalTablet :=
            if isIncr then ⟨tab.ranges ++ planMissing pr, planTarget env.src none⟩
            else ⟨env.src.ranges, env.src.maxVersion⟩
          { result := Except.ok
              ⟨OutcomeKind.cloned
                  (if isIncr then CloneMode.incrementalMode else CloneMode.fullMode),
                fr.bytesCopied, fr.elapsedMs, tab.ranges.isEmpty, newTab.cumulativePoint⟩,
            tablet := newTab,
            trace := [CoordState.planning, CoordState.fetching, CoordState.converting,
              CoordState.publishing, CoordState.succeeded],
            publishedIncremental := some isIncr,
            bytesCopied := fr.bytesCopied }

/-- Modelled from the spec: the retry policy of EngineCloneTask::execute
(spec sections 4.5 and 7) — versionConflict from publish triggers exactly
one full-sequence retry from planning; every other first-attempt result is
final.  Returns the final attempt's record and the number of attempts
made. -/
def executeClone (envs : Nat → CloneEnv) (tab : LocalTablet) : AttemptResult × Nat :=
  match (runAttempt (envs 0) tab).result with
  | Except.error CloneError.versionConflict =>
    (runAttempt (envs 1) (runAttempt (envs 0) tab).tablet, 2)
  | _ => (runAttempt (envs 0) tab, 1)

lemma runAttempt_sync (env : CloneEnv) (tab : LocalTablet)
    (hsync : plan tab env.src none = PlanResult.alreadyInSync) :
    runAttempt env tab =
      { result := Except.ok ⟨OutcomeKind.alreadyInSync, 0, 0, false, tab.cumulativePoint⟩,
        tablet := tab,
        trace := [CoordState.planning, CoordState.succeeded],
        publishedIncremental := none,
        bytesCopied := 0 } := by
  unfold runAttempt
  simp [hsync]

lemma runAttempt_trace_starts_planning (env : CloneEnv) (tab : LocalTablet) :
    (runAttempt env tab).trace.head? = some CoordState.planning := by
  by_cases h : plan tab env.src none = PlanResult.alreadyInSync
  · rw [runAttempt_sync env tab h]
    rfl
  · simp only [runAttempt, if_neg h]
    split
    · rfl
    · split
      · rfl
      · split
        · rfl
        · rfl

lemma executeClone_first_ok (envs : Nat → CloneEnv) (tab : LocalTablet) (oc : CloneOutcome)
    (h : (runAttempt (envs 0) tab).result = Except.ok oc) :
    executeClone envs tab = (runAttempt (envs 0) tab, 1) := by
  unfold executeClone
  rw [h]

/-- Claim C5: on an already-synced tablet the full pipeline is an
idempotent no-op — the first run yields the alreadyInSync outcome with
zero bytes copied, the coordinator goes straight from PLANNING to
SUCCEEDED (no fetch, convert or publish state), the tablet is unchanged,
and a second run in succession yields alreadyInSync with zero bytes again. -/
theorem C5_already_in_sync_idempotent_noop
    (envs envs2 : Nat → CloneEnv) (tab : LocalTablet)
    (hsync : plan tab (envs 0).src none = PlanResult.alreadyInSync)
    (hsync2 : plan tab (envs2 0).src none = PlanResult.alreadyInSync) :
    (executeClone envs tab).1.result =
      Except.ok ⟨OutcomeKind.alreadyInSync, 0, 0, false, tab.cumulativePoint⟩ ∧
    (executeClone envs tab).1.bytesCopied = 0 ∧
    (executeClone envs tab).1.trace = [CoordState.planning, CoordState.succeeded] ∧
    (executeClone envs tab).1.tablet = tab ∧
    (executeClone envs tab).2 = 1 ∧
    (executeClone envs2 (executeClone envs tab).1.tablet).1.result =
      Except.ok ⟨OutcomeKind.alreadyInSync, 0, 0, false, tab.cumulativePoint⟩ ∧
    (executeClone envs2 (executeClone envs tab).1.tablet).1.bytesCopied = 0 := by
  have h0 := runAttempt_sync (envs 0) tab hsync
  have hex : executeClone envs tab = (runAttempt (envs 0) tab, 1) :=
    executeClone_first_ok envs tab _ (by rw [h0])
  have h2 := runAttempt_sync (envs2 0) tab hsync2
  have hex2 : executeClone envs2 tab = (runAttempt (envs2 0) tab, 1) :=
    executeClone_first_ok envs2 tab _ (by rw [h2])
  rw [hex, h0]
  refine ⟨rfl, rfl, rfl, rfl, rfl, ?_, ?_⟩ <;> simp [hex2, h2]

/-- Witness for C5: a tablet already at the source's maximum version. -/
theorem C5_already_in_sync_idempotent_noop_witness :
    plan ⟨[⟨1, 5⟩], 5⟩
        ((fun _ => CloneEnv.mk ⟨[⟨1, 5⟩], 5⟩ (fun _ => NetResult.success 0 0) true 2 none) 0).src
        none = PlanResult.alreadyInSync ∧
    (executeClone (fun _ => CloneEnv.mk ⟨[⟨1, 5⟩], 5⟩ (fun _ => NetResult.success 0 0) true 2 none)
        ⟨[⟨1, 5⟩], 5⟩).1.result =
      Except.ok ⟨OutcomeKind.alreadyInSync, 0, 0, false, 5⟩ :=
  ⟨by decide,
    (C5_already_in_sync_idempotent_noop
      (fun _ => CloneEnv.mk ⟨[⟨1, 5⟩], 5⟩ (fun _ => NetResult.success 0 0) true 2 none)
      (fun _ => CloneEnv.mk ⟨[⟨1, 5⟩], 5⟩ (fun _ => NetResult.success 0 0) true 2 none)
      ⟨[⟨1, 5⟩], 5⟩ (by decide) (by decide)).1⟩

/-- Claim C6: versionConflict from publish is the only error that triggers
a retry, and it is retried exactly once, starting again from PLANNING; the
second attempt's result — success or failure — is final, and every other
error propagates immediately after a single attempt. -/
theorem C6_version_conflict_retried_exactly_once
    (envs : Nat → CloneEnv) (tab : LocalTablet) :
    ((runAttempt (envs 0) tab).result = Except.error CloneError.versionConflict →
      executeClone envs tab = (runAttempt (envs 1) (runAttempt (envs 0) tab).tablet, 2) ∧
      (runAttempt (envs 1) (runAttempt (envs 0) tab).tablet).trace.head? =
        some CoordState.planning) ∧
    ∀ e, e ≠ CloneError.versionConflict →
      (runAttempt (envs 0) tab).result = Except.error e →
      executeClone envs tab = (runAttempt (envs 0) tab, 1) := by
  constructor
  · intro h
    constructor
    · unfold executeClone
      rw [h]
    · exact runAttempt_trace_starts_planning _ _
  · intro e hne he
    unfold executeClone
    rw [he]
    cases e with
    | versionConflict => exact absurd rfl hne
    | sourceUnreachable => rfl
    | versionUnavailable => rfl
    | unsupportedFormat => rfl
    | corruptSnapshot => rfl
    | validationFailed => rfl
    | metadataCommitFailed => rfl
    | ioError => rfl
    | diskFull => rfl

/-- Local tablet at versions 1..10 (spec Scenario A). -/
def tabA : LocalTablet := ⟨[⟨1, 10⟩], 10⟩

/-- Source replica holding rowsets [1,10] and [11,15], max version 15. -/
def srcA : SourceView := ⟨[⟨1, 10⟩, ⟨11, 15⟩], 15⟩

/-- An attempt environment whose publish is hit by a concurrent writer:
publish fails with versionConflict. -/
def envConflictFirst : CloneEnv :=
  ⟨srcA, fun _ => NetResult.success 100 5, true, currentSnapshotFormat,
    some CloneError.versionConflict⟩

/-- A clean retry environment: same source, publish succeeds. -/
def envCleanRetry : CloneEnv :=
  ⟨srcA, fun _ => NetResult.success 100 5, true, currentSnapshotFormat, none⟩

/-- An environment in which the source can no longer serve the planned
missing versions individually at fetch time: the fetch succeeds as a full
snapshot and _clone_copy reports allow_incremental_clone = false. -/
def envIncrDisallowed : CloneEnv :=
  ⟨srcA, fun _ => NetResult.success 4096 20, false, currentSnapshotFormat, none⟩

/-- Witness for C6: a publish-time versionConflict on the first attempt
leads to exactly one retry whose result is final. -/
theorem C6_version_conflict_retried_exactly_once_witness :
    (runAttempt ((fun n => if n = 0 then envConflictFirst else envCleanRetry) 0) tabA).result =
      Except.error CloneError.versionConflict ∧
    executeClone (fun n => if n = 0 then envConflictFirst else envCleanRetry) tabA =
      (runAttempt ((fun n => if n = 0 then envConflictFirst else envCleanRetry) 1)
        (runAttempt ((fun n => if n = 0 then envConflictFirst else envCleanRetry) 0)
          tabA).tablet, 2) :=
  ⟨by decide,
    ((C6_version_conflict_retried_exactly_once
      (fun n => if n = 0 then envConflictFirst else envCleanRetry) tabA).1 (by decide)).1⟩

/-- How a C++ parameter is passed in a declaration. -/
inductive CppParamKind where
  | byValue : CppParamKind
  | byConstRef : CppParamKind
  | byMutRef : CppParamKind
  | byConstPointer : CppParamKind
  | byMutPointer : CppParamKind
deriving Repr, DecidableEq

/-- One declared C++ parameter: its type text, its name, and how it is
passed. -/
structure CppParam where
  typeName : String
  paramName : String
  kind : CppParamKind
deriving Repr, DecidableEq

/-- Transcribed from src/be/src/olap/task/engine_clone_task.h lines 38-43:
the parameter list of the EngineCloneTask constructor. -/
def engineCloneTaskCtorParams : List CppParam :=
  [ ⟨"TCloneReq", "clone_req", CppParamKind.byConstRef⟩,
    ⟨"TMasterInfo", "master_info", CppParamKind.byConstRef⟩,
    ⟨"int64_t", "signature", CppParamKind.byValue⟩,
    ⟨"vector<string>*", "error_msgs", CppParamKind.byMutPointer⟩,
    ⟨"vector<TTabletInfo>*", "tablet_infos", CppParamKind.byMutPointer⟩,
    ⟨"AgentStatus*", "res_status", CppParamKind.byMutPointer⟩ ]

/-- Transcribed from engine_clone_task.h line 35: the return type of
EngineCloneTask::execute. -/
def executeReturnType : String := "OLAPStatus"

/-- Transcribed from engine_clone_task.h lines 56-65: the parameter list of
EngineCloneTask::_clone_copy. -/
def cloneCopyParams : List CppParam :=
  [ ⟨"DataDir&", "data_dir", CppParamKind.byMutRef⟩,
    ⟨"TCloneReq", "clone_req", CppParamKind.byConstRef⟩,
    ⟨"int64_t", "signature", CppParamKind.byValue⟩,
    ⟨"string", "local_data_path", CppParamKind.byConstRef⟩,
    ⟨"TBackend*", "src_host", CppParamKind.byMutPointer⟩,
    ⟨"string*", "src_file_path", CppParamKind.byMutPointer⟩,
    ⟨"vector<string>*", "error_msgs", CppParamKind.byMutPointer⟩,
    ⟨"vector<Version>", "missing_versions", CppParamKind.byConstPointer⟩,
    ⟨"bool*", "allow_incremental_clone", CppParamKind.byMutPointer⟩,
    ⟨"TabletSharedPtr", "tablet", CppParamKind.byValue⟩ ]

/-- Transcribed from engine_clone_task.h lines 48-49: the parameter list of
EngineCloneTask::_finish_clone. -/
def finishCloneParams : List CppParam :=
  [ ⟨"TabletSharedPtr", "tablet", CppParamKind.byValue⟩,
    ⟨"std::string", "clone_dir", CppParamKind.byConstRef⟩,
    ⟨"int64_t", "committed_version", CppParamKind.byValue⟩,
    ⟨"bool", "is_incremental_clone", CppParamKind.byValue⟩ ]

/-- Names of the constructor parameters that are mutable output parameters
(passed by non-const pointer). -/
def mutableOutputParams : List String :=
  (engineCloneTaskCtorParams.filter
    (fun p => decide (p.kind = CppParamKind.byMutPointer))).map (fun p => p.paramName)

/-- The spec's claim (spec section 9), stated over the declared interface:
the clone core would deliver its result as a single owned value returned up
the call chain — no mutable output parameters on the constructor, and the
entry point returning the outcome value rather than a bare status code. -/
def deliversResultAsSingleOwnedValue : Bool :=
  mutableOutputParams.isEmpty && decide (executeReturnType = "CloneOutcome")

/-- Claim C9 counterexample: the declared interface does not deliver its
result as a single owned value — the constructor takes the error-message
list, the tablet-info list and the status flag by mutable pointer, so the
spec's single-owned-result description is false of this code. -/
theorem C9_counterexample_mutable_output_params :
    deliversResultAsSingleOwnedValue = false ∧
    mutableOutputParams = ["error_msgs", "tablet_infos", "res_status"] := by
  constructor <;> rfl

/-- Claim C9 amended: the clone core reports through caller-supplied
mutable output parameters — error_msgs, tablet_infos and res_status are
passed to the constructor by mutable pointer and stored for the duration of
the task — while execute returns a bare OLAPStatus rather than an owned
outcome value. -/
theorem C9_amended_reports_via_output_params :
    mutableOutputParams = ["error_msgs", "tablet_infos", "res_status"] ∧
    executeReturnType = "OLAPStatus" ∧
    engineCloneTaskCtorParams.any
      (fun p => decide (p.kind = CppParamKind.byMutPointer)) = true := by
  refine ⟨rfl, rfl, rfl⟩

/-- Claim C10: the mode actually used at publish time is decided after the
fetch stage, not fixed at planning — _clone_copy reports through the
mutable allow_incremental_clone flag, _finish_clone takes an
is_incremental_clone value, and on an input planned as incremental whose
source can no longer serve the missing versions at fetch time, the clone
is published as full. -/
theorem C10_publish_mode_decided_after_fetch :
    plan tabA srcA none = PlanResult.incremental [⟨11, 15⟩] ∧
    (runAttempt envIncrDisallowed tabA).publishedIncremental = some false ∧
    (runAttempt envIncrDisallowed tabA).result =
      Except.ok ⟨OutcomeKind.cloned CloneMode.fullMode, 4096, 20, false, 15⟩ ∧
    (cloneCopyParams.filter
        (fun p => decide (p.paramName = "allow_incremental_clone"))).map
      (fun p => p.kind) = [CppParamKind.byMutPointer] ∧
    (finishCloneParams.filter
        (fun p => decide (p.paramName = "is_incremental_clone"))).map
      (fun p => p.kind) = [CppParamKind.byValue] := by
  refine ⟨by decide, by decide, by decide, by rfl, by rfl⟩

end DorisClone
